import Mathlib

/-!
Verification of the Zephyr BioHarness link subsystem (labstreaminglayer/App-Zephyr).

This file embeds the protocol codec of `core/protocol.py`, the CRC utilities of
`core/utilities.py`, the lifesign logic of `core/bluetooth.py` and the RPC
dispatch of `core/interface.py` as executable Lean definitions, and proves the
stated properties about them.

Conventions used throughout:
* a byte stream / payload is a `List Nat` whose elements are intended to be
  `< 256` (Python `bytes`); hypotheses state this bound where it matters;
* Python `math.nan` propagating through decoded fields is modelled by the
  `PyVal.nan` constructor, integers by `PyVal.num`;
* Python code that can raise is modelled with `Except String`; the error
  strings name the Python exception that would be raised.
-/

namespace Zephyr

/-- A decoded numeric field: either a Python int or `math.nan`
(the decoded form of an invalid-sentinel field). -/
inductive PyVal where
  | num (n : Int)
  | nan
deriving DecidableEq, Repr

deriving instance DecidableEq for Except

/-! ## CRC-8 (`core/utilities.py`) -/

/-- One inner-loop iteration of `crc8_slow`: shift right, conditionally
XOR-ing the reflected polynomial `0x8C` when the low bit was set. -/
def crc8_round (crc : Nat) : Nat :=
  if crc % 2 = 1 then (crc / 2) ^^^ 0x8C else crc / 2

/-- Processing of one payload byte by `crc8_slow`: XOR the byte into the
accumulator, then run eight rounds (`for bit in range(8)`). -/
def crc8_byte_step (crc b : Nat) : Nat :=
  (List.range 8).foldl (fun c _ => crc8_round c) (crc ^^^ b)

/-- `crc8_slow(payload)` of `core/utilities.py` (bitwise definition). -/
def crc8_slow (payload : List Nat) : Nat :=
  payload.foldl crc8_byte_step 0

/-- `CRC_LUT`: the 256-entry lookup table precomputed from single-byte inputs. -/
def CRC_LUT : List Nat :=
  (List.range 256).map (fun b => crc8_slow [b])

/-- `crc8(payload)` of `core/utilities.py`: the table-based fast CRC,
one lookup `accum := CRC_LUT[accum ^ b]` per byte. -/
def crc8 (payload : List Nat) : Nat :=
  payload.foldl (fun accum b => CRC_LUT.getD (accum ^^^ b) 0) 0

lemma xor_lt_256 {a b : Nat} (ha : a < 256) (hb : b < 256) : a ^^^ b < 256 := by
  have h : Nat.bitwise bne a b < 2 ^ 8 := Nat.bitwise_lt (by simpa using ha) (by simpa using hb)
  simpa [HXor.hXor, Xor.xor, Nat.xor] using h

lemma crc8_round_lt {x : Nat} (h : x < 256) : crc8_round x < 256 := by
  unfold crc8_round
  split
  · exact xor_lt_256 (by omega) (by norm_num)
  · omega

lemma crc8_byte_step_eq (a b : Nat) :
    crc8_byte_step a b =
      crc8_round (crc8_round (crc8_round (crc8_round
        (crc8_round (crc8_round (crc8_round (crc8_round (a ^^^ b)))))))) := rfl

lemma crc8_byte_step_lt {a b : Nat} (ha : a < 256) (hb : b < 256) :
    crc8_byte_step a b < 256 := by
  rw [crc8_byte_step_eq]
  exact crc8_round_lt (crc8_round_lt (crc8_round_lt (crc8_round_lt
    (crc8_round_lt (crc8_round_lt (crc8_round_lt (crc8_round_lt
      (xor_lt_256 ha hb))))))))

lemma CRC_LUT_getD {x : Nat} (h : x < 256) :
    CRC_LUT.getD x 0 = crc8_byte_step 0 x := by
  unfold CRC_LUT
  rw [List.getD_eq_getElem?_getD, List.getElem?_map, List.getElem?_range h]
  rfl

lemma crc8_fold_eq (P : List Nat) : ∀ a, a < 256 → (∀ b ∈ P, b < 256) →
    P.foldl (fun accum b => CRC_LUT.getD (accum ^^^ b) 0) a = P.foldl crc8_byte_step a := by
  induction P with
  | nil => intro a _ _; rfl
  | cons b P ih =>
    intro a ha hb
    have hb0 : b < 256 := hb b (by simp)
    simp only [List.foldl_cons]
    rw [CRC_LUT_getD (xor_lt_256 ha hb0)]
    have hstep : crc8_byte_step 0 (a ^^^ b) = crc8_byte_step a b := by
      simp [crc8_byte_step, Nat.zero_xor]
    rw [hstep]
    exact ih _ (crc8_byte_step_lt ha hb0) (fun c hc => hb c (by simp [hc]))

/-! ## Numeric parsing (`core/protocol.py`, `parse_num`) -/

/-- The little-endian unsigned value of a byte sequence, as computed by the
`for val in reversed(encoded): num = num*256 + int(val)` loop of `parse_num`. -/
def le_value (encoded : List Nat) : Nat :=
  encoded.foldr (fun b acc => acc * 256 + b) 0

/-- `parse_num(encoded, signed, inval=...)` of `core/protocol.py`, with
`num_bytes` left to default to `len(encoded)` as at every call site in scope.
Raises (`Except.error`) exactly when the Python function raises: when more
than four bytes are supplied, or when `signed` is requested on an empty
sequence (`encoded[-1]` raises `IndexError`). The invalid-sentinel comparison
happens on the unsigned value, before two's-complement adjustment, as in the
source. -/
def parse_num (encoded : List Nat) (signed : Bool) (inval : Option Nat) :
    Except String PyVal :=
  if encoded.length > 4 then .error "ValueError: num_bytes not specified"
  else
    let num := le_value encoded
    let v : PyVal := if some num = inval then .nan else .num num
    if signed then
      match encoded.getLast? with
      | none => .error "IndexError: empty sequence"
      | some last =>
        if last > 127 then
          .ok (match v with
               | .nan => .nan
               | .num n => .num (n - 2 ^ (8 * encoded.length)))
        else .ok v
    else .ok v

lemma exists_ok_of_ne_error {ε α : Type} {x : Except ε α}
    (h : ∀ e, x ≠ .error e) : ∃ v, x = .ok v := by
  cases x with
  | ok v => exact ⟨v, rfl⟩
  | error e => exact absurd rfl (h e)

/-- `parse_num` on a nonempty sequence of at most four bytes never raises. -/
lemma parse_num_ok {encoded : List Nat} (hne : encoded ≠ [])
    (hlen : encoded.length ≤ 4) (signed : Bool) (inval : Option Nat) :
    ∃ v, parse_num encoded signed inval = .ok v := by
  apply exists_ok_of_ne_error
  intro e
  unfold parse_num
  rw [if_neg (by omega)]
  cases signed with
  | false => simp
  | true =>
    cases hgl : encoded.getLast? with
    | none => exact absurd (List.getLast?_eq_none_iff.mp hgl) hne
    | some last =>
      split
      · split
        · simp_all
        · split <;> simp
      · simp_all

/-! ## Timestamp validity (`parse_timestamp` / `date2stamp_cached`)

`StreamingMessage.__init__` parses the 8-byte timestamp that follows the
sequence number: a 2-byte little-endian year, one byte month, one byte day
and 4 bytes of milliseconds.  `date2stamp_cached` constructs
`datetime.datetime(year, month, day)`, which raises `ValueError` unless
`1 <= year <= 9999`, `1 <= month <= 12` and `1 <= day <= days in month`.
The numeric value of the resulting stamp is irrelevant to every claim below;
only whether the constructor raises matters, which is what we model. -/

def isLeapYear (y : Nat) : Bool :=
  (y % 4 == 0 && y % 100 != 0) || (y % 400 == 0)

def daysInMonth (y m : Nat) : Nat :=
  if m = 2 then (if isLeapYear y then 29 else 28)
  else if m = 4 ∨ m = 6 ∨ m = 9 ∨ m = 11 then 30
  else 31

def dateValid (y m d : Nat) : Bool :=
  1 ≤ y && y ≤ 9999 && 1 ≤ m && m ≤ 12 && 1 ≤ d && d ≤ daysInMonth y m

/-- Whether `parse_timestamp(payload[1:])` succeeds: the year is read
little-endian from payload bytes 1..2, the month from byte 3, the day from
byte 4. -/
def tsValid (payload : List Nat) : Bool :=
  dateValid (payload.getD 1 0 + 256 * payload.getD 2 0)
    (payload.getD 3 0) (payload.getD 4 0)

/-! ## The BHT bit-packing scheme (`make_sequence_unpacker`)

`make_sequence_unpacker(vals_per_chunk, is_signed, bits_per_val=10)` compiles
a `cbitstruct` format of `vals_per_chunk` ten-bit fields, each read
least-significant-bit first (the `<` prefix), and applies it to the input
bytes after per-byte bit reversal (`reverse_bits8`).  The composite effect is
that the chunk bytes are read as one little-endian bit stream: field `k` of a
chunk is bits `[10k, 10k+10)` of the little-endian integer formed by the
chunk bytes.  `bitstruct` raises on data shorter than the format
("Short data"), modelled by `none`. All waveform call sites use 10-bit
values, so the bit width is fixed to 10 here. -/

/-- The bytes of a chunk as a single little-endian integer. -/
def leBytesToNat (seq : List Nat) : Nat :=
  seq.foldr (fun b acc => acc * 256 + b) 0

/-- The three signedness modes of `make_sequence_unpacker`:
`False` (unsigned), `True` (two's complement) and `'shift'`. -/
inductive SignMode where
  | unsigned
  | signed
  | shift
deriving DecidableEq, Repr

/-- Interpretation of one raw 10-bit field according to the signedness mode.
For `'shift'` the source maps a raw `0` to `math.nan` and otherwise
subtracts half the range (`v - 2**(bits_per_val - 1)`); for `True` the
bitstruct format `s10` yields the two's complement value. -/
def decode_packed_val (sm : SignMode) (v : Nat) : PyVal :=
  match sm with
  | .unsigned => .num v
  | .signed => if v < 2 ^ 9 then .num v else .num ((v : Int) - 2 ^ 10)
  | .shift => if v = 0 then .nan else .num ((v : Int) - 2 ^ 9)

/-- Unpacking `n` ten-bit values from a chunk.  A non-positive count comes
from the (never exercised on documented payload lengths) truncated-chunk
bookkeeping and yields an empty format, hence an empty tuple. -/
def unpack_vals (n : Int) (sm : SignMode) (seq : List Nat) : Option (List PyVal) :=
  if n ≤ 0 then some []
  else if seq.length * 8 < 10 * n.toNat then none
  else some ((List.range n.toNat).map
    (fun k => decode_packed_val sm ((leBytesToNat seq >>> (10 * k)) % 2 ^ 10)))

/-! ## Waveform extraction (`WaveformMessage.__init__`) -/

/-- The chunk start offsets `range(9, plen, bpc)` of the waveform loop. -/
def chunk_offsets (plen bpc : Nat) : List Nat :=
  if bpc = 0 then []
  else (List.range ((plen - 9 + (bpc - 1)) / bpc)).map (fun i => 9 + bpc * i)

/-- `vals_per_chunk = bytes_per_chunk*4//5` (ten-bit values), as an `Int`
for the `vals_per_packet` countdown arithmetic. -/
def vpcOf (bpc : Nat) : Int := ((bpc * 4 / 5 : Nat) : Int)

/-- The chunk loop of `WaveformMessage.__init__`.  State: `n` is the value
count of the currently compiled unpacker (initially `vals_per_chunk`, rebound
to the remaining `vals_per_packet` once that drops below a full chunk) and
`vpp` is the running `vals_per_packet` countdown.  `none` models a
`bitstruct` error escaping the constructor. -/
def wf_chunks (p : List Nat) (bpc : Nat) (sm : SignMode) :
    List Nat → Int → Int → Option (List PyVal)
  | [], _, _ => some []
  | ofs :: offs, n, vpp =>
    let n' := if vpp < vpcOf bpc then vpp else n
    match unpack_vals n' sm ((p.drop ofs).take bpc) with
    | none => none
    | some vals =>
      match wf_chunks p bpc sm offs n' (vpp - vpcOf bpc) with
      | none => none
      | some rest => some (vals ++ rest)

/-- The waveform list built by `WaveformMessage.__init__` for a payload `p`,
chunk size `bytes_per_chunk = bpc` and total count `vals_per_packet = vpp`. -/
def waveform_extract (p : List Nat) (bpc : Nat) (vpp : Int) (sm : SignMode) :
    Option (List PyVal) :=
  wf_chunks p bpc sm (chunk_offsets p.length bpc) (vpcOf bpc) vpp

/-- Length behaviour of `unpack_vals`, depending only on the chunk length. -/
def unpack_len (n : Int) (seqLen : Nat) : Option Nat :=
  if n ≤ 0 then some 0
  else if seqLen * 8 < 10 * n.toNat then none
  else some n.toNat

/-- Length behaviour of the chunk loop, a function of the payload length only. -/
def wf_chunks_len (plen bpc : Nat) : List Nat → Int → Int → Option Nat
  | [], _, _ => some 0
  | ofs :: offs, n, vpp =>
    let n' := if vpp < vpcOf bpc then vpp else n
    match unpack_len n' (min bpc (plen - ofs)) with
    | none => none
    | some l1 =>
      match wf_chunks_len plen bpc offs n' (vpp - vpcOf bpc) with
      | none => none
      | some l2 => some (l1 + l2)

lemma unpack_vals_length (n : Int) (sm : SignMode) (seq : List Nat) :
    (unpack_vals n sm seq).map List.length = unpack_len n seq.length := by
  unfold unpack_vals unpack_len
  split
  · rfl
  · split
    · rfl
    · simp

lemma wf_chunks_length (p : List Nat) (bpc : Nat) (sm : SignMode) :
    ∀ (offs : List Nat) (n vpp : Int),
      (wf_chunks p bpc sm offs n vpp).map List.length =
        wf_chunks_len p.length bpc offs n vpp := by
  intro offs
  induction offs with
  | nil => intro n vpp; rfl
  | cons ofs offs ih =>
    intro n vpp
    rw [wf_chunks, wf_chunks_len]
    have hlen : ((p.drop ofs).take bpc).length = min bpc (p.length - ofs) := by
      simp [List.length_take, List.length_drop]
    have hu := unpack_vals_length (if vpp < vpcOf bpc then vpp else n)
      sm ((p.drop ofs).take bpc)
    rw [hlen] at hu
    cases hca : unpack_vals (if vpp < vpcOf bpc then vpp else n)
        sm ((p.drop ofs).take bpc) with
    | none =>
      rw [hca] at hu
      simp only [Option.map_none'] at hu
      simp only [hca, ← hu]
      rfl
    | some vals =>
      rw [hca] at hu
      simp only [Option.map_some'] at hu
      simp only [hca, ← hu]
      cases hcb : wf_chunks p bpc sm offs
          (if vpp < vpcOf bpc then vpp else n) (vpp - vpcOf bpc) with
      | none =>
        have hcl := ih (if vpp < vpcOf bpc then vpp else n) (vpp - vpcOf bpc)
        rw [hcb] at hcl
        simp only [Option.map_none'] at hcl
        simp [← hcl]
      | some rest =>
        have hcl := ih (if vpp < vpcOf bpc then vpp else n) (vpp - vpcOf bpc)
        rw [hcb] at hcl
        simp only [Option.map_some'] at hcl
        simp [← hcl]

lemma waveform_extract_length (p : List Nat) (bpc : Nat) (vpp : Int) (sm : SignMode) :
    (waveform_extract p bpc vpp sm).map List.length =
      wf_chunks_len p.length bpc (chunk_offsets p.length bpc) (vpcOf bpc) vpp :=
  wf_chunks_length p bpc sm _ _ _

/-! ## Typed message parsers (`core/protocol.py`) -/

/-- Python extended slicing `l[start::3]`, used by the accelerometer messages
to split the interleaved waveform into per-axis arrays: element `i` of the
result is `l[start + 3*i]`, and the result has `ceil((len(l) - start)/3)`
elements. -/
def pySlice3 (l : List PyVal) (start : Nat) : List PyVal :=
  (List.range ((l.length - start + 2) / 3)).map (fun i => l.getD (start + 3 * i) .nan)

lemma pySlice3_length (l : List PyVal) (start : Nat) :
    (pySlice3 l start).length = (l.length - start + 2) / 3 := by
  simp [pySlice3]

/-- Left-to-right effectful map over a list comprehension: the first raised
exception propagates, otherwise the list of results is returned. -/
def mapExcept {α β : Type} (f : α → Except String β) : List α → Except String (List β)
  | [] => .ok []
  | a :: l =>
    match f a with
    | .error e => .error e
    | .ok b =>
      match mapExcept f l with
      | .error e => .error e
      | .ok r => .ok (b :: r)

lemma mapExcept_ok {α β : Type} (f : α → Except String β) (l : List α)
    (h : ∀ a ∈ l, ∃ b, f a = .ok b) :
    ∃ r, mapExcept f l = .ok r ∧ r.length = l.length := by
  induction l with
  | nil => exact ⟨[], rfl, rfl⟩
  | cons a l ih =>
    obtain ⟨b, hb⟩ := h a (by simp)
    obtain ⟨r, hr, hrl⟩ := ih (fun x hx => h x (by simp [hx]))
    exact ⟨b :: r, by rw [mapExcept, hb, hr], by simp [hrl]⟩

/-- `ECGWaveformMessage.__init__`: asserts an 88-byte payload, parses the
9-byte streaming header (timestamp may raise), then extracts 63 ten-bit
"shifted" samples in 5-byte chunks.  The final elementwise scaling to
millivolts (`w*0.025`) is a length-preserving float operation on the decoded
samples and is not represented in the integer model; the returned list holds
the unscaled samples. -/
def ecgWaveform_init (p : List Nat) : Except String (List PyVal) :=
  if p.length ≠ 88 then .error "AssertionError: payload length"
  else if ¬ tsValid p then .error "ValueError: invalid date"
  else
    match waveform_extract p 5 63 .shift with
    | none => .error "bitstruct: short data"
    | some wf => .ok wf

/-- `BreathingWaveformMessage.__init__`: 32-byte payload, 18 "shifted"
samples in 5-byte chunks. -/
def breathingWaveform_init (p : List Nat) : Except String (List PyVal) :=
  if p.length ≠ 32 then .error "AssertionError: payload length"
  else if ¬ tsValid p then .error "ValueError: invalid date"
  else
    match waveform_extract p 5 18 .shift with
    | none => .error "bitstruct: short data"
    | some wf => .ok wf

/-- `AccelerometerWaveformMessage.__init__`: 84-byte payload, `3*20`
"shifted" samples in 15-byte chunks, split into the `accel_x`, `accel_y`,
`accel_z` slices `waveform[::3]`, `waveform[1::3]`, `waveform[2::3]`. -/
def accelWaveform_init (p : List Nat) :
    Except String (List PyVal × List PyVal × List PyVal) :=
  if p.length ≠ 84 then .error "AssertionError: payload length"
  else if ¬ tsValid p then .error "ValueError: invalid date"
  else
    match waveform_extract p 15 (3 * 20) .shift with
    | none => .error "bitstruct: short data"
    | some wf => .ok (pySlice3 wf 0, pySlice3 wf 1, pySlice3 wf 2)

/-- `Accelerometer100MgWaveformMessage.__init__`: like the accelerometer
message but with two's-complement samples (the elementwise `w*0.1` scaling
to g, a float operation, is again omitted; lengths are unaffected). -/
def accel100Waveform_init (p : List Nat) :
    Except String (List PyVal × List PyVal × List PyVal) :=
  if p.length ≠ 84 then .error "AssertionError: payload length"
  else if ¬ tsValid p then .error "ValueError: invalid date"
  else
    match waveform_extract p 15 (3 * 20) .signed with
    | none => .error "bitstruct: short data"
    | some wf => .ok (pySlice3 wf 0, pySlice3 wf 1, pySlice3 wf 2)

/-- `RtoRMessage.__init__`: 45-byte payload; 16-bit signed values read at
offsets `range(9, len(payload), 2)`. -/
def rtor_init (p : List Nat) : Except String (List PyVal) :=
  if p.length ≠ 45 then .error "AssertionError: payload length"
  else if ¬ tsValid p then .error "ValueError: invalid date"
  else mapExcept (fun ofs => parse_num ((p.drop ofs).take 2) true none)
    (chunk_offsets p.length 2)

/-- The ten known event codes of `EventMessage.event_map`. -/
def event_map_keys : List Nat :=
  [0x0040, 0x0041, 0x0080, 0x00C0, 0x1000, 0x1040, 0x1080, 0x10C0, 0x1100, 0x1140]

/-- `EventMessage.event_map.get(code, f'unknown:{code}')`. -/
def event_string_of (code : Nat) : String :=
  if code = 0x0040 then "button press"
  else if code = 0x0041 then "emergency button press"
  else if code = 0x0080 then "battery level low"
  else if code = 0x00C0 then "self test result"
  else if code = 0x1000 then "ROG change"
  else if code = 0x1040 then "worn status change"
  else if code = 0x1080 then "HR reliability change"
  else if code = 0x10C0 then "fall detected"
  else if code = 0x1100 then "jump detected"
  else if code = 0x1140 then "dash detected"
  else "unknown:" ++ toString code

/-- The decoded content of an `EventMessage` relevant to the claims. -/
structure EventRec where
  event_code : Nat
  event_string : String
  event_data : List Nat
deriving DecidableEq, Repr

/-- `EventMessage.__init__`: the streaming base class asserts a payload of
at least 9 bytes and parses the timestamp (which raises on an invalid
calendar date); the event code is then read little-endian from
`payload[9:11]` (an empty or 1-byte slice decodes as usual), looked up in
`event_map` with an `unknown:<code>` fallback, and the remaining bytes are
stored opaquely as `event_data`. -/
def eventMessage_init (p : List Nat) : Except String EventRec :=
  if p.length < 9 then .error "AssertionError: payload length"
  else if ¬ tsValid p then .error "ValueError: invalid date"
  else
    let code := le_value ((p.drop 9).take 2)
    .ok { event_code := code
          event_string := event_string_of code
          event_data := p.drop 11 }

/-- The fields of `SummaryDataMessageV2` derived from the extended status
word (payload bytes 69..71); all other fields are `parse_num` results and
scalings that can neither raise nor affect control flow once the status word
at bytes 56..58 is nonzero, so they are omitted from the record. -/
structure SummaryV2Rec where
  ext_status : Nat
  resp_rate_low : Bool
  resp_rate_high : Bool
  br_amplitude_low : Bool
  br_amplitude_high : Bool
  br_amplitude_variance_high : Bool
  br_signal_eval_state : Nat
deriving DecidableEq, Repr

/-- `SummaryDataMessageV2.__init__`.  The raising control flow, in source
order: the 71-byte length assertion; the timestamp parse of the streaming
base class; the `ver == 2` assertion; `_decode_status_info` applied to
`parse_num(payload[56:58], inval=0)`, which on a zero status word computes
`nan & 3` and raises `TypeError`; then the extended status word
`parse_num(payload[69:71], inval=0xFFFF)`: if it is `0xFFFF` the expression
`ext_status_info & 2**15` is `nan & int` and raises `TypeError`; otherwise,
if bit 15 is clear, `flags_valid = nan`, the five flag comparisons evaluate
to `False` (`int > nan` is `False` in Python), and
`(ext_status_info >> 5) & (3 + flags_valid)` raises `TypeError` on
`int & nan`.  Only when bit 15 is set (`flags_valid = 0`) does the
constructor return, with each flag `(ext & 2**k) > 0` and the 2-bit
evaluation state `(ext >> 5) & 3`. -/
def summaryV2_init (p : List Nat) : Except String SummaryV2Rec :=
  if p.length ≠ 71 then .error "AssertionError: payload length"
  else if ¬ tsValid p then .error "ValueError: invalid date"
  else if p.getD 9 0 ≠ 2 then .error "AssertionError: version"
  else if p.getD 56 0 + 256 * p.getD 57 0 = 0 then
    .error "TypeError: nan status word"
  else if p.getD 69 0 + 256 * p.getD 70 0 = 0xFFFF then
    .error "TypeError: nan ext status word"
  else if (p.getD 69 0 + 256 * p.getD 70 0) &&& 2 ^ 15 = 0 then
    .error "TypeError: nan eval state"
  else
    .ok { ext_status := p.getD 69 0 + 256 * p.getD 70 0
          resp_rate_low := 0 < (p.getD 69 0 + 256 * p.getD 70 0) &&& 2 ^ 0
          resp_rate_high := 0 < (p.getD 69 0 + 256 * p.getD 70 0) &&& 2 ^ 1
          br_amplitude_low := 0 < (p.getD 69 0 + 256 * p.getD 70 0) &&& 2 ^ 2
          br_amplitude_high := 0 < (p.getD 69 0 + 256 * p.getD 70 0) &&& 2 ^ 3
          br_amplitude_variance_high :=
            0 < (p.getD 69 0 + 256 * p.getD 70 0) &&& 2 ^ 4
          br_signal_eval_state := ((p.getD 69 0 + 256 * p.getD 70 0) >>> 5) &&& 3 }

/-- Whether `SummaryDataMessageV3.__init__` returns without raising: the
71-byte length assertion, the timestamp parse, the `ver == 3` assertion and
`_decode_status_info` on `parse_num(payload[32:34], inval=0)` (zero status
word gives `nan & 3`, a `TypeError`) can raise; the GPS and accelerometry
bit blocks (10 bytes for 79 format bits, 20 bytes for 154 format bits) and
all remaining `parse_num` fields and scalings cannot. -/
def summaryV3_yields (p : List Nat) : Bool :=
  (p.length == 71) && tsValid p && (p.getD 9 0 == 3)
    && (p.getD 32 0 + 256 * p.getD 33 0 != 0)

/-- Whether `GeneralDataMessage.__init__` returns without raising: the
53-byte length assertion and the timestamp parse; every other field is a
`parse_num` on a nonempty slice, a scaling of a possibly-nan float, or a bit
test on the (sentinel-free) status word, none of which raise. -/
def generalData_yields (p : List Nat) : Bool :=
  (p.length == 53) && tsValid p

def except_succeeds {α : Type} : Except String α → Bool
  | .ok _ => true
  | .error _ => false

/-! ## Message ids and the framer (`decode_bytestream`, `encode_message`) -/

/-- All values of the `MessageIDs` enumeration (`MI.__members__.values()`). -/
def MI_ids : List Nat :=
  [0x20, 0x21, 0x22, 0x24, 0x25, 0x27, 0x28, 0x2A, 0x2B, 0x2C, 0x3F, 0x60,
   0x23,
   0x14, 0x15, 0x16, 0x19, 0x1E, 0xBC, 0xB8, 0xBD,
   0x08, 0x09, 0x0A, 0x0B, 0x0C, 0x0D, 0x0E, 0x12, 0x17, 0xA3, 0xA5, 0xA7,
   0xAC, 0xB5, 0xB7, 0x9C, 0xBF, 0xD1, 0x11, 0xD4]

def knownId (m : Nat) : Bool := MI_ids.contains m

/-- The message ids for which `decode_message` dispatches to a typed parser
(or, for `SummaryDataPacket`, a version switch) instead of constructing a
plain `Message`. -/
def typed_ids : List Nat := [0x22, 0x2A, 0x25, 0x21, 0x2C, 0x20, 0x2B, 0x24]

/-- Whether `decode_message(msgid, payload, fin)` returns a message (so that
the framer yields it) rather than raising an exception (caught and logged by
`decode_bytestream`) or returning `None` (an unsupported summary version).
The terminator `fin` is only stored on the message and never influences
this. Branches follow the `if/elif` chain of `decode_message`. -/
def decode_message_yields (msgid : Nat) (payload : List Nat) : Bool :=
  if msgid == 0x22 then except_succeeds (ecgWaveform_init payload)
  else if msgid == 0x2A then except_succeeds (accel100Waveform_init payload)
  else if msgid == 0x25 then except_succeeds (accelWaveform_init payload)
  else if msgid == 0x21 then except_succeeds (breathingWaveform_init payload)
  else if msgid == 0x2C then except_succeeds (eventMessage_init payload)
  else if msgid == 0x20 then generalData_yields payload
  else if msgid == 0x2B then
    -- `ver = payload[9]` raises IndexError on short payloads
    if payload.length ≤ 9 then false
    else if payload.getD 9 0 == 3 then summaryV3_yields payload
    else if payload.getD 9 0 == 2 then except_succeeds (summaryV2_init payload)
    else false  -- unsupported version: decode_message returns None
  else if msgid == 0x24 then except_succeeds (rtor_init payload)
  else knownId msgid

/-- A message at the framing layer: message id, payload bytes, terminator. -/
abbrev Frame := Nat × List Nat × Nat

/-- `encode_message`:
`STX | msgid | len(payload) | payload | crc8(payload) | fin`. -/
def encode_message (msgid : Nat) (payload : List Nat) (fin : Nat) : List Nat :=
  [0x02, msgid, payload.length] ++ payload ++ [crc8 payload, fin]

/-- Membership in `valid_fins = (ETX, ACK, NAK)`. -/
def isFin (b : Nat) : Bool := b == 0x03 || b == 0x06 || b == 0x15

/-- The scan `while next(stream) != MC.STX: pass`: consume bytes up to and
including the first `STX`; `none` when the stream ends first. -/
def afterSTX : List Nat → Option (List Nat)
  | [] => none
  | b :: rest => if b == 0x02 then some rest else afterSTX rest

/-- The skip `while next(stream) not in valid_fins: pass` used for frames
with a bogus length: consume bytes up to and including the first terminator;
`none` when the stream ends first. -/
def afterFin : List Nat → Option (List Nat)
  | [] => none
  | b :: rest => if isFin b then some rest else afterFin rest

/-- One iteration of the framer's message loop, applied to the bytes that
follow a consumed `STX`.  Returns `none` when the stream is exhausted
mid-frame (`StopIteration` ends the generator), otherwise the optionally
yielded frame and the remaining bytes.  A frame is yielded only when the id
is known, the CRC matches, the terminator is valid and `decode_message`
produces a message. -/
def parseFrame : List Nat → Option (Option Frame × List Nat)
  | [] => none
  | msgid :: s2 =>
    match s2 with
    | [] => none
    | plen :: s3 =>
      if 128 < plen then
        match afterFin s3 with
        | none => none
        | some s4 => some (none, s4)
      else
        match s3.drop plen with
        | crc :: fin :: rest =>
          let payload := s3.take plen
          let good := knownId msgid && (crc == crc8 payload) && isFin fin
          some (if good && decode_message_yields msgid payload
                then some (msgid, payload, fin) else none, rest)
        | _ => none

/-- Fuel-indexed unfolding of the framer loop; each iteration consumes at
least one byte, so `length + 1` fuel always suffices (`decode_bytestream`
below). -/
def decode_stream_fuel : Nat → List Nat → List Frame
  | 0, _ => []
  | fuel + 1, s =>
    match afterSTX s with
    | none => []
    | some s1 =>
      match parseFrame s1 with
      | none => []
      | some (fr?, rest) =>
        match fr? with
        | some fr => fr :: decode_stream_fuel fuel rest
        | none => decode_stream_fuel fuel rest

/-- `decode_bytestream` on a finite byte stream: the list of messages the
generator yields before the stream raises `StopIteration`. -/
def decode_bytestream (s : List Nat) : List Frame :=
  decode_stream_fuel (s.length + 1) s

lemma afterSTX_length : ∀ {s r : List Nat}, afterSTX s = some r → r.length < s.length := by
  intro s
  induction s with
  | nil => intro r h; exact absurd h (by simp [afterSTX])
  | cons b rest ih =>
    intro r h
    rw [afterSTX] at h
    split at h
    · cases h; simp
    · exact Nat.lt_trans (ih h) (by simp)

lemma afterFin_length : ∀ {s r : List Nat}, afterFin s = some r → r.length < s.length := by
  intro s
  induction s with
  | nil => intro r h; exact absurd h (by simp [afterFin])
  | cons b rest ih =>
    intro r h
    rw [afterFin] at h
    split at h
    · cases h; simp
    · exact Nat.lt_trans (ih h) (by simp)

lemma parseFrame_length : ∀ {s1 : List Nat} {fr? : Option Frame} {rest : List Nat},
    parseFrame s1 = some (fr?, rest) → rest.length < s1.length := by
  intro s1 fr? rest h
  match s1 with
  | [] => exact absurd h (by simp [parseFrame])
  | msgid :: s2 =>
    match s2 with
    | [] => exact absurd h (by simp [parseFrame])
    | plen :: s3 =>
      rw [parseFrame] at h
      split at h
      · cases hfin : afterFin s3 with
        | none => rw [hfin] at h; cases h
        | some s4 =>
          rw [hfin] at h
          cases h
          have := afterFin_length hfin
          simp only [List.length_cons]
          omega
      · cases hdrop : s3.drop plen with
        | nil => rw [hdrop] at h; cases h
        | cons crc s4 =>
          cases s4 with
          | nil => rw [hdrop] at h; cases h
          | cons fin rest' =>
            rw [hdrop] at h
            cases h
            have hd : (s3.drop plen).length ≤ s3.length := by
              simp [List.length_drop]
            rw [hdrop] at hd
            simp only [List.length_cons] at hd ⊢
            omega

/-- The framer result does not depend on the fuel once the fuel exceeds the
stream length: every loop iteration consumes at least one byte. -/
lemma decode_stream_fuel_congr : ∀ (f1 f2 : Nat) (s : List Nat),
    s.length < f1 → s.length < f2 →
    decode_stream_fuel f1 s = decode_stream_fuel f2 s := by
  intro f1
  induction f1 with
  | zero => intro f2 s h1 h2; omega
  | succ f1 ih =>
    intro f2 s h1 h2
    cases f2 with
    | zero => omega
    | succ f2 =>
      cases hstx : afterSTX s with
      | none => simp [decode_stream_fuel, hstx]
      | some s1 =>
        cases hpf : parseFrame s1 with
        | none => simp [decode_stream_fuel, hstx, hpf]
        | some pr =>
          obtain ⟨fr?, rest⟩ := pr
          have hr : rest.length < s.length :=
            lt_trans (parseFrame_length hpf) (afterSTX_length hstx)
          have e1 : decode_stream_fuel f1 rest = decode_stream_fuel f2 rest :=
            ih f2 rest (by omega) (by omega)
          cases fr? <;> simp [decode_stream_fuel, hstx, hpf, e1]

lemma decode_stream_fuel_eq {f : Nat} {s : List Nat} (h : s.length < f) :
    decode_stream_fuel f s = decode_bytestream s :=
  decode_stream_fuel_congr f (s.length + 1) s h (by omega)

lemma decode_bytestream_nil : decode_bytestream [] = [] := rfl

lemma decode_stream_fuel_nil (f : Nat) : decode_stream_fuel f [] = [] := by
  cases f <;> rfl

lemma encode_message_cons (m : Nat) (P : List Nat) (fin : Nat) :
    encode_message m P fin = 0x02 :: m :: P.length :: (P ++ [crc8 P, fin]) := rfl

/-- Parsing the bytes of an encoded message that directly follow its `STX`:
one frame is consumed, the whole stream is used up, and the frame is yielded
exactly when the id is known, the terminator valid and `decode_message`
succeeds (the CRC always matches by construction). -/
lemma parseFrame_encode (m : Nat) (P : List Nat) (fin : Nat)
    (hlen : P.length ≤ 128) :
    parseFrame (m :: P.length :: (P ++ [crc8 P, fin])) =
      some (if knownId m && isFin fin && decode_message_yields m P
            then some (m, P, fin) else none, []) := by
  rw [parseFrame]
  rw [if_neg (by omega)]
  rw [List.drop_left, List.take_left]
  simp only [beq_self_eq_true, Bool.and_true, Bool.true_and]

/-- With any successor fuel, decoding the bytes of an encoded message with a
known id, a valid terminator, a payload of at most 128 bytes and a
successful payload parse yields exactly that message. -/
lemma decode_fuel_encode (m : Nat) (P : List Nat) (fin : Nat) (f : Nat)
    (hlen : P.length ≤ 128) (hm : knownId m = true) (hfin : isFin fin = true)
    (hy : decode_message_yields m P = true) :
    decode_stream_fuel (f + 1) (encode_message m P fin) = [(m, P, fin)] := by
  rw [encode_message_cons]
  have hpf := parseFrame_encode m P fin hlen
  simp [decode_stream_fuel, afterSTX, hpf, hm, hfin, hy, decode_stream_fuel_nil]

/-- Decoding the encoding of a message with a known id, a valid terminator,
a payload of at most 128 bytes and a successful payload parse yields exactly
that message. -/
lemma decode_bytestream_encode (m : Nat) (P : List Nat) (fin : Nat)
    (hlen : P.length ≤ 128) (hm : knownId m = true) (hfin : isFin fin = true)
    (hy : decode_message_yields m P = true) :
    decode_bytestream (encode_message m P fin) = [(m, P, fin)] :=
  decode_fuel_encode m P fin _ hlen hm hfin hy

/-- The STX scan runs through any prefix that contains no `STX` byte and
consumes the first `STX` it meets. -/
lemma afterSTX_append {g : List Nat} (hg : 2 ∉ g) (l : List Nat) :
    afterSTX (g ++ 2 :: l) = some l := by
  induction g with
  | nil => rfl
  | cons b g ih =>
    have hb : b ≠ 2 := fun h => hg (by simp [h])
    rw [List.cons_append, afterSTX]
    rw [if_neg (by simpa using hb)]
    exact ih (fun h => hg (by simp [h]))

/-- The bogus-length skip runs through any junk that contains no terminator
byte and consumes the first terminator it meets. -/
lemma afterFin_append {junk : List Nat} (hj : ∀ b ∈ junk, isFin b = false)
    {t : Nat} (ht : isFin t = true) (l : List Nat) :
    afterFin (junk ++ t :: l) = some l := by
  induction junk with
  | nil => rw [List.nil_append, afterFin, if_pos ht]
  | cons b junk ih =>
    rw [List.cons_append, afterFin, if_neg (by simp [hj b (by simp)])]
    exact ih (fun c hc => hj c (by simp [hc]))

/-- For a known id that is not dispatched to a typed parser,
`decode_message` builds a plain `Message`, which never raises. -/
lemma plain_id_yields {m : Nat} (hm : knownId m = true) (hp : m ∉ typed_ids)
    (P : List Nat) : decode_message_yields m P = true := by
  simp only [typed_ids, List.mem_cons, List.not_mem_nil, or_false, not_or] at hp
  obtain ⟨h1, h2, h3, h4, h5, h6, h7, h8⟩ := hp
  unfold decode_message_yields
  rw [if_neg (by simpa using h1), if_neg (by simpa using h2),
    if_neg (by simpa using h3), if_neg (by simpa using h4),
    if_neg (by simpa using h5), if_neg (by simpa using h6),
    if_neg (by simpa using h7), if_neg (by simpa using h8)]
  exact hm

/-! ## Lifesign keepalive (`BioharnessIO._transmit_loop`) -/

/-- The lifesign logic at the top of each `_transmit_loop` iteration, as
written in `core/bluetooth.py`: at wall-clock time `t`, when
`t - last_lifesign_sent_at > lifesign_interval` a Lifesign message is sent
and `last_lifesign_sent_at` is assigned the constant `0` (the literal in the
source).  Returns whether a lifesign was emitted and the new
`last_lifesign_sent_at`. -/
def lifesign_step (interval lastSent t : Int) : Bool × Int :=
  if interval < t - lastSent then (true, 0) else (false, lastSent)

/-- Emission pattern of the lifesign logic over a sequence of loop
iteration times, starting from `last_lifesign_sent_at = lastSent`
(initially `0`). -/
def lifesign_emissions (interval : Int) : Int → List Int → List Bool
  | _, [] => []
  | lastSent, t :: ts =>
    let r := lifesign_step interval lastSent t
    r.1 :: lifesign_emissions interval r.2 ts

/-! ## RPC reply correlation (`BioHarness._call` / `_dispatch_message`) -/

/-- The message ids of `periodic_messages`, the keys of the
`_streaming_handlers` table. -/
def periodic_ids : List Nat :=
  [0x20, 0x21, 0x22, 0x24, 0x25, 0x27, 0x28, 0x2A, 0x2B, 0x2C, 0x3F, 0x60]

/-- The dispatch state of a `BioHarness` instance: the per-msgid FIFOs of
pending reply futures (`_awaited_messages`, keyed by message id, futures
identified by tokens), and the completions performed so far, in the order
`call_soon_threadsafe(fut.set_result, msg)` was invoked.  Handler callbacks
for periodic messages touch neither structure and are not represented. -/
structure RpcState where
  pending : Nat → List Nat
  completed : List (Nat × Frame)

/-- The queue operations of `BioHarness._call` before awaiting: create a
future `fid` and append it to the FIFO for `msgid` (`Queue.put`). -/
def rpc_call (msgid fid : Nat) (st : RpcState) : RpcState :=
  { st with pending := fun k =>
      if k = msgid then st.pending msgid ++ [fid] else st.pending k }

/-- `BioHarness._dispatch_message` for an inbound message: streaming ids go
to the handler table, `Lifesign` is ignored, and any other id pops the
oldest pending future for that id (if any) and completes it with the
message. -/
def rpc_dispatch (msg : Frame) (st : RpcState) : RpcState :=
  if msg.1 ∈ periodic_ids then st
  else if msg.1 = 0x23 then st
  else
    match st.pending msg.1 with
    | [] => st  -- unrequested reply: warn and discard
    | f :: rest =>
      { pending := fun k => if k = msg.1 then rest else st.pending k
        completed := st.completed ++ [(f, msg)] }

/-- The dispatch state after two calls to the same id `mid` (futures `f1`
then `f2`) followed by the arrival of two replies `r1` then `r2`, starting
from an idle instance. -/
def rpc_two_call_state (mid f1 f2 : Nat) (r1 r2 : Frame) : RpcState :=
  rpc_dispatch r2 (rpc_dispatch r1
    (rpc_call mid f2 (rpc_call mid f1 ⟨fun _ => [], []⟩)))

/-! ## The claims -/

/-- Claim C1: for every known message id `m` that decodes to a plain
`Message` (no typed payload parser) and every payload `P` of at most 128
bytes, feeding `encode_message(Message(m, P, ETX))` into
`decode_bytestream` yields exactly one message with the same id, payload
and `ETX` terminator. -/
theorem C1_codec_roundtrip (m : Nat) (P : List Nat)
    (hbytes : ∀ b ∈ P, b < 256) (hlen : P.length ≤ 128)
    (hknown : knownId m = true) (hplain : m ∉ typed_ids) :
    decode_bytestream (encode_message m P 0x03) = [(m, P, 0x03)] :=
  decode_bytestream_encode m P 0x03 hlen hknown (by decide)
    (plain_id_yields hknown hplain P)

theorem C1_roundtrip_witness :
    ((∀ b ∈ ([17, 34] : List Nat), b < 256) ∧ ([17, 34] : List Nat).length ≤ 128
      ∧ knownId 0x23 = true ∧ 0x23 ∉ typed_ids)
    ∧ decode_bytestream (encode_message 0x23 [17, 34] 0x03)
        = [(0x23, [17, 34], 0x03)] :=
  ⟨⟨by decide, by decide, by decide, by decide⟩,
   C1_codec_roundtrip 0x23 [17, 34] (by decide) (by decide) (by decide) (by decide)⟩

/-- Claim C2: the table-based `crc8` agrees with the bitwise `crc8_slow` on
every byte sequence (in particular every sequence of length at most 1024). -/
theorem C2_crc_agreement (P : List Nat) (h : ∀ b ∈ P, b < 256) :
    crc8 P = crc8_slow P :=
  crc8_fold_eq P 0 (by omega) h

theorem C2_crc_witness :
    (∀ b ∈ ([1, 2, 3, 4] : List Nat), b < 256)
    ∧ crc8 [1, 2, 3, 4] = crc8_slow [1, 2, 3, 4] :=
  ⟨by decide, C2_crc_agreement [1, 2, 3, 4] (by decide)⟩

/-- Claim C3 (code bug): the transmit loop resets `last_lifesign_sent_at`
to the literal `0` instead of the emission time, so with
`lifesign_interval = 2` and consecutive loop iterations at times `10` and
`11` a Lifesign is emitted on both iterations, only one second apart —
contradicting the claimed behaviour that the emission time is recorded and
consecutive lifesigns are at least `lifesign_interval` apart. -/
theorem C3_lifesign_code_behavior :
    lifesign_emissions 2 0 [10, 11] = [true, true] ∧ (11 - 10 : Int) < 2 := by
  constructor
  · rfl
  · decide

/-- Claim C4: with two RPC calls in flight for the same (non-periodic,
non-Lifesign) command id, the replies complete the pending futures in send
order: the first-issued future is resolved with the first-arriving reply
and the second with the second, and the FIFO for that id is empty again
afterwards. -/
theorem C4_rpc_fifo_correlation (mid f1 f2 : Nat) (pay1 pay2 : List Nat)
    (fin1 fin2 : Nat) (hper : mid ∉ periodic_ids) (hls : mid ≠ 0x23) :
    (rpc_two_call_state mid f1 f2 (mid, pay1, fin1) (mid, pay2, fin2)).completed
        = [(f1, (mid, pay1, fin1)), (f2, (mid, pay2, fin2))]
    ∧ (rpc_two_call_state mid f1 f2 (mid, pay1, fin1) (mid, pay2, fin2)).pending mid
        = [] := by
  unfold rpc_two_call_state rpc_call rpc_dispatch
  simp [hper, hls]

theorem C4_rpc_witness :
    ((0x0B : Nat) ∉ periodic_ids ∧ (0x0B : Nat) ≠ 0x23)
    ∧ ((rpc_two_call_state 0x0B 1 2 (0x0B, [65], 0x06) (0x0B, [66], 0x06)).completed
          = [(1, (0x0B, [65], 0x06)), (2, (0x0B, [66], 0x06))]
        ∧ (rpc_two_call_state 0x0B 1 2 (0x0B, [65], 0x06) (0x0B, [66], 0x06)).pending 0x0B
          = []) :=
  ⟨⟨by decide, by decide⟩,
   C4_rpc_fifo_correlation 0x0B 1 2 [65] [66] 0x06 0x06 (by decide) (by decide)⟩

/-- Claim C5: a frame announcing a payload length above 128 is discarded in
its entirety, up to and including the next terminator byte, without
emitting a message, and a valid frame that follows is still decoded. -/
theorem C5_bogus_len_skip (m1 L : Nat) (junk : List Nat) (t : Nat)
    (m : Nat) (P : List Nat)
    (hL : 128 < L) (hjunk : ∀ b ∈ junk, isFin b = false) (ht : isFin t = true)
    (hlen : P.length ≤ 128) (hm : knownId m = true) (hplain : m ∉ typed_ids) :
    decode_bytestream (0x02 :: m1 :: L :: (junk ++ t :: encode_message m P 0x03))
      = [(m, P, 0x03)] := by
  unfold decode_bytestream
  have hpf : parseFrame (m1 :: L :: (junk ++ t :: encode_message m P 0x03)) =
      some (none, encode_message m P 0x03) := by
    rw [parseFrame, if_pos hL, afterFin_append hjunk ht]
  simp only [List.length_cons]
  rw [decode_stream_fuel]
  have hstx : afterSTX (0x02 :: m1 :: L :: (junk ++ t :: encode_message m P 0x03))
      = some (m1 :: L :: (junk ++ t :: encode_message m P 0x03)) := rfl
  rw [hstx]
  simp only [hpf]
  rw [decode_stream_fuel_congr _ ((encode_message m P 0x03).length + 1) _
    (by simp [encode_message_cons]; omega) (by omega)]
  exact decode_fuel_encode m P 0x03 _ hlen hm (by decide)
    (plain_id_yields hm hplain P)

theorem C5_bogus_len_witness :
    (128 < 200 ∧ (∀ b ∈ ([0xAA] : List Nat), isFin b = false)
      ∧ isFin 0x03 = true ∧ ([] : List Nat).length ≤ 128
      ∧ knownId 0x23 = true ∧ 0x23 ∉ typed_ids)
    ∧ decode_bytestream
        (0x02 :: 0x20 :: 200 :: ([0xAA] ++ 0x03 :: encode_message 0x23 [] 0x03))
      = [(0x23, [], 0x03)] :=
  ⟨⟨by decide, by decide, by decide, by decide, by decide, by decide⟩,
   C5_bogus_len_skip 0x20 200 [0xAA] 0x03 0x23 [] (by decide) (by decide)
     (by decide) (by decide) (by decide) (by decide)⟩

/-- Claim C6, counterexample to the unrestricted statement: a garbage
prefix may itself contain the `STX` byte `0x02`, in which case the framer
syncs on the garbage byte, misreads the following frame bytes as header
fields, exhausts the stream and emits nothing — even though the frame alone
decodes to one Lifesign message. -/
theorem C6_resync_counterexample :
    decode_bytestream ([0x02] ++ encode_message 0x23 [] 0x03) = []
    ∧ decode_bytestream (encode_message 0x23 [] 0x03) = [(0x23, [], 0x03)] := by
  constructor
  · decide
  · decide

/-- Claim C6 (amended): for every garbage prefix that contains no `STX`
byte, the framer skips the garbage and emits exactly the valid frame that
follows; in particular the stream `FF FF 02 23 00 00 03` yields exactly one
Lifesign message. -/
theorem C6_resync_amended (g : List Nat) (hg : 2 ∉ g) (m : Nat) (P : List Nat)
    (hlen : P.length ≤ 128) (hm : knownId m = true) (hplain : m ∉ typed_ids) :
    decode_bytestream (g ++ encode_message m P 0x03) = [(m, P, 0x03)] := by
  unfold decode_bytestream
  rw [encode_message_cons]
  have hstx := afterSTX_append hg (m :: P.length :: (P ++ [crc8 P, 0x03]))
  have hpf := parseFrame_encode m P 0x03 hlen
  simp [decode_stream_fuel, hstx, hpf, hm, plain_id_yields hm hplain P,
    decode_stream_fuel_nil, isFin]

theorem C6_resync_witness :
    ((2 ∉ ([0xFF, 0xFF] : List Nat)) ∧ ([] : List Nat).length ≤ 128
      ∧ knownId 0x23 = true ∧ 0x23 ∉ typed_ids
      ∧ ([0xFF, 0xFF] ++ encode_message 0x23 [] 0x03
          = [0xFF, 0xFF, 0x02, 0x23, 0x00, 0x00, 0x03]))
    ∧ decode_bytestream ([0xFF, 0xFF] ++ encode_message 0x23 [] 0x03)
        = [(0x23, [], 0x03)] :=
  ⟨⟨by decide, by decide, by decide, by decide, by decide⟩,
   C6_resync_amended [0xFF, 0xFF] (by decide) 0x23 [] (by decide) (by decide)
     (by decide)⟩

/-- `parse_num` with an invalid-sentinel decodes to nan exactly when the
little-endian unsigned value of the bytes equals the sentinel; the signed
two's-complement adjustment (applied after the sentinel comparison) never
introduces or removes a nan. -/
lemma parse_num_nan_iff (encoded : List Nat) (signed : Bool) (inval : Nat)
    (hne : encoded ≠ []) (hlen : encoded.length ≤ 4) :
    parse_num encoded signed (some inval) = .ok .nan ↔ le_value encoded = inval := by
  unfold parse_num
  rw [if_neg (by omega)]
  cases signed with
  | false =>
    by_cases hni : le_value encoded = inval
    · simp [hni]
    · simp [hni]
  | true =>
    cases hgl : encoded.getLast? with
    | none => exact absurd (List.getLast?_eq_none_iff.mp hgl) hne
    | some last =>
      by_cases hni : le_value encoded = inval
      · by_cases hlast : last > 127
        · simp [hni, hlast]
        · simp [hni, hlast]
      · by_cases hlast : last > 127
        · simp [hni, hlast]
        · simp [hni, hlast]

/-- Claim C7: (a) for every field decoded through `parse_num` with a
documented invalid sentinel (`0xFFFF` two-byte unsigned, `0x8000` two-byte
signed, `0xFF` byte, `0x80` byte; the statement covers every byte width up
to four and both signedness flags), the result is nan exactly when the raw
little-endian unsigned value equals the sentinel; (b) every "shifted"
ten-bit waveform sample with raw value `0` decodes to nan, and a nonzero
raw value `v` decodes to `v - 2^9`. -/
theorem C7_sentinel_and_shift :
    (∀ (encoded : List Nat) (signed : Bool) (inval : Nat),
        encoded ≠ [] → encoded.length ≤ 4 →
        (parse_num encoded signed (some inval) = .ok .nan
          ↔ le_value encoded = inval))
    ∧ (∀ (n : Int) (seq : List Nat) (vs : List PyVal) (k : Nat),
        unpack_vals n .shift seq = some vs → k < vs.length →
        vs.getD k .nan =
          (if (leBytesToNat seq >>> (10 * k)) % 2 ^ 10 = 0 then PyVal.nan
           else PyVal.num
             ((((leBytesToNat seq >>> (10 * k)) % 2 ^ 10 : Nat) : Int) - 2 ^ 9))) := by
  constructor
  · exact fun e s i h1 h2 => parse_num_nan_iff e s i h1 h2
  · intro n seq vs k hvs hk
    unfold unpack_vals at hvs
    split_ifs at hvs with h1 h2
    · simp only [Option.some.injEq] at hvs
      subst hvs
      simp at hk
    · simp only [Option.some.injEq] at hvs
      subst hvs
      rw [List.getD_eq_getElem _ _ hk]
      rw [List.getElem_map]
      rw [List.getElem_range]
      rfl

theorem C7_sentinel_witness :
    (([0x00, 0x80] : List Nat) ≠ [] ∧ ([0x00, 0x80] : List Nat).length ≤ 4
      ∧ le_value [0x00, 0x80] = 0x8000)
    ∧ (parse_num [0x00, 0x80] true (some 0x8000) = .ok .nan
        ↔ le_value [0x00, 0x80] = 0x8000)
    ∧ (unpack_vals 4 .shift [0x01, 0x00, 0x00, 0x00, 0x00]
        = some [.num (1 - 2 ^ 9), .nan, .nan, .nan]
      ∧ ([PyVal.num (1 - 2 ^ 9), .nan, .nan, .nan].getD 0 .nan =
          (if (leBytesToNat [0x01, 0x00, 0x00, 0x00, 0x00] >>> (10 * 0)) % 2 ^ 10 = 0
           then PyVal.nan
           else PyVal.num
             ((((leBytesToNat [0x01, 0x00, 0x00, 0x00, 0x00] >>> (10 * 0)) % 2 ^ 10 : Nat) : Int)
               - 2 ^ 9)))) :=
  ⟨⟨by decide, by decide, by decide⟩,
   C7_sentinel_and_shift.1 [0x00, 0x80] true 0x8000 (by decide) (by decide),
   by decide,
   C7_sentinel_and_shift.2 4 [0x01, 0x00, 0x00, 0x00, 0x00]
     [.num (1 - 2 ^ 9), .nan, .nan, .nan] 0 (by decide) (by decide)⟩

/-- Claim C8: the decoded waveform counts are exact: an `ECGWaveformMessage`
(88-byte payload) carries 63 samples, a `BreathingWaveformMessage` (32
bytes) 18 samples, an `AccelerometerWaveformMessage` (84 bytes) 20 samples
on each of the three axes, and an `RtoRMessage` (45 bytes) 18 values. -/
theorem C8_waveform_lengths :
    (∀ p wf, ecgWaveform_init p = .ok wf → wf.length = 63)
    ∧ (∀ p wf, breathingWaveform_init p = .ok wf → wf.length = 18)
    ∧ (∀ p xyz, accelWaveform_init p = .ok xyz →
        xyz.1.length = 20 ∧ xyz.2.1.length = 20 ∧ xyz.2.2.length = 20)
    ∧ (∀ p wf, rtor_init p = .ok wf → wf.length = 18) := by
  refine ⟨?_, ?_, ?_, ?_⟩
  · intro p wf h
    unfold ecgWaveform_init at h
    split_ifs at h with h88 hts
    have h88' : p.length = 88 := by omega
    cases hx : waveform_extract p 5 63 .shift with
    | none => rw [hx] at h; simp at h
    | some wf' =>
      rw [hx] at h
      simp only [Except.ok.injEq] at h
      subst h
      have hlen := waveform_extract_length p 5 63 .shift
      rw [hx, h88'] at hlen
      have hrhs : wf_chunks_len 88 5 (chunk_offsets 88 5) (vpcOf 5) 63 = some 63 := by
        decide
      rw [hrhs] at hlen
      simpa using hlen
  · intro p wf h
    unfold breathingWaveform_init at h
    split_ifs at h with h32 hts
    have h32' : p.length = 32 := by omega
    cases hx : waveform_extract p 5 18 .shift with
    | none => rw [hx] at h; simp at h
    | some wf' =>
      rw [hx] at h
      simp only [Except.ok.injEq] at h
      subst h
      have hlen := waveform_extract_length p 5 18 .shift
      rw [hx, h32'] at hlen
      have hrhs : wf_chunks_len 32 5 (chunk_offsets 32 5) (vpcOf 5) 18 = some 18 := by
        decide
      rw [hrhs] at hlen
      simpa using hlen
  · intro p xyz h
    unfold accelWaveform_init at h
    split_ifs at h with h84 hts
    have h84' : p.length = 84 := by omega
    cases hx : waveform_extract p 15 (3 * 20) .shift with
    | none => rw [hx] at h; simp at h
    | some wf' =>
      rw [hx] at h
      simp only [Except.ok.injEq] at h
      subst h
      have hlen := waveform_extract_length p 15 (3 * 20) .shift
      rw [hx, h84'] at hlen
      have hrhs : wf_chunks_len 84 15 (chunk_offsets 84 15) (vpcOf 15) (3 * 20)
          = some 60 := by decide
      rw [hrhs] at hlen
      have hwl : wf'.length = 60 := by simpa using hlen
      refine ⟨?_, ?_, ?_⟩ <;> simp [pySlice3_length, hwl]
  · intro p wf h
    unfold rtor_init at h
    split_ifs at h with h45 hts
    have h45' : p.length = 45 := by omega
    have hofs : ∀ ofs ∈ chunk_offsets p.length 2, ofs ≤ 43 := by
      rw [h45']
      intro ofs ho
      simp only [chunk_offsets] at ho
      norm_num at ho
      obtain ⟨i, hi, hofs⟩ := ho
      omega
    have hall : ∀ ofs ∈ chunk_offsets p.length 2,
        ∃ v, parse_num ((p.drop ofs).take 2) true none = .ok v := by
      intro ofs ho
      have hle : ofs ≤ 43 := hofs ofs ho
      have hsl : ((p.drop ofs).take 2).length = min 2 (p.length - ofs) := by
        simp [List.length_take, List.length_drop]
      apply parse_num_ok
      · intro hnil
        rw [hnil] at hsl
        simp only [List.length_nil] at hsl
        omega
      · omega
    obtain ⟨r, hr, hrl⟩ := mapExcept_ok
      (fun ofs => parse_num ((p.drop ofs).take 2) true none)
      (chunk_offsets p.length 2) hall
    rw [hr] at h
    simp only [Except.ok.injEq] at h
    subst h
    rw [hrl, h45']
    decide

/-- Here `pEcgZero` is an 88-byte ECG payload with a valid timestamp
(1 Jan 2000) and all-zero waveform bytes; it decodes to 63 nan samples
(spec scenario: all-zero shifted samples are missing). -/
def pEcgZero : List Nat := [0, 208, 7, 1, 1, 0, 0, 0, 0] ++ List.replicate 79 0

theorem C8_waveform_witness :
    (ecgWaveform_init pEcgZero = .ok (List.replicate 63 PyVal.nan))
    ∧ (List.replicate 63 PyVal.nan).length = 63 :=
  ⟨by decide,
   C8_waveform_lengths.1 pEcgZero (List.replicate 63 PyVal.nan) (by decide)⟩

/-- Claim C9: for a 71-byte version-2 summary payload whose extended status
word (bytes 69..71, little-endian) is `0xFFFF` or has the valid-flag
(bit 15) clear, `SummaryDataMessageV2.__init__` raises, so the framer drops
the frame and no V2 record is produced; consequently every successfully
decoded V2 record has the valid-flag set (and a non-`0xFFFF` extended
status word), so the case "valid-flag clear, flags reported missing" never
occurs. -/
theorem C9_summary_v2_valid_flag (p : List Nat) (h71 : p.length = 71)
    (hver : p.getD 9 0 = 2) :
    ((p.getD 69 0 + 256 * p.getD 70 0 = 0xFFFF
        ∨ (p.getD 69 0 + 256 * p.getD 70 0) &&& 2 ^ 15 = 0) →
      ∀ r, summaryV2_init p ≠ .ok r)
    ∧ (∀ r, summaryV2_init p = .ok r →
        r.ext_status &&& 2 ^ 15 ≠ 0 ∧ r.ext_status ≠ 0xFFFF
          ∧ r.ext_status = p.getD 69 0 + 256 * p.getD 70 0) := by
  constructor
  · intro hbad r
    unfold summaryV2_init
    split_ifs with h1 h2 h3 h4 h5 h6 <;> intro hc <;> try cases hc
    all_goals rcases hbad with hb | hb
    all_goals first
      | exact absurd hb h5
      | exact absurd hb h6
  · intro r hok
    unfold summaryV2_init at hok
    split_ifs at hok with h1 h2 h3 h4 h5 h6
    simp only [Except.ok.injEq] at hok
    rw [← hok]
    exact ⟨h6, h5, rfl⟩

/-- A 71-byte version-2 summary payload (valid timestamp 1 Jan 2000,
nonzero status word) whose extended status word is `0` — valid-flag
clear. -/
def pV2bad : List Nat :=
  [0, 208, 7, 1, 1, 0, 0, 0, 0, 2] ++ List.replicate 46 0
    ++ [1, 0] ++ List.replicate 11 0 ++ [0, 0]

theorem C9_summary_witness :
    (pV2bad.length = 71 ∧ pV2bad.getD 9 0 = 2
      ∧ (pV2bad.getD 69 0 + 256 * pV2bad.getD 70 0) &&& 2 ^ 15 = 0)
    ∧ (∀ r, summaryV2_init pV2bad ≠ .ok r) :=
  ⟨⟨by decide, by decide, by decide⟩,
   (C9_summary_v2_valid_flag pV2bad (by decide) (by decide)).1 (Or.inr (by decide))⟩

/-- Claim C10, counterexample to the unrestricted statement: the all-zero
11-byte payload has an unknown event code (`0`) and length 11, but decoding
raises — the streaming header's timestamp parse constructs
`datetime.datetime(0, 0, 0)` and year `0` is out of range — so no
`EventMessage` is produced at all. -/
theorem C10_event_counterexample :
    eventMessage_init (List.replicate 11 0) = .error "ValueError: invalid date"
    ∧ (List.replicate 11 (0 : Nat)).length = 11
    ∧ le_value (((List.replicate 11 (0 : Nat)).drop 9).take 2) ∉ event_map_keys := by
  exact ⟨by decide, by decide, by decide⟩

/-- Claim C10 (amended): for every event payload of length at least 11
whose timestamp denotes a valid calendar date, decoding succeeds even when
the 16-bit event code is unknown: `event_string` is `unknown:<code>` rather
than an error, and `event_data` is exactly the payload from offset 11 on,
unchanged. -/
theorem C10_unknown_event (p : List Nat) (h11 : 11 ≤ p.length)
    (hts : tsValid p = true)
    (hunk : le_value ((p.drop 9).take 2) ∉ event_map_keys) :
    eventMessage_init p = .ok
      { event_code := le_value ((p.drop 9).take 2)
        event_string := "unknown:" ++ toString (le_value ((p.drop 9).take 2))
        event_data := p.drop 11 } := by
  have hstr : event_string_of (le_value ((p.drop 9).take 2))
      = "unknown:" ++ toString (le_value ((p.drop 9).take 2)) := by
    simp only [event_map_keys, List.mem_cons, List.not_mem_nil, or_false,
      not_or] at hunk
    obtain ⟨e1, e2, e3, e4, e5, e6, e7, e8, e9, e10⟩ := hunk
    unfold event_string_of
    rw [if_neg e1, if_neg e2, if_neg e3, if_neg e4, if_neg e5, if_neg e6,
      if_neg e7, if_neg e8, if_neg e9, if_neg e10]
  unfold eventMessage_init
  rw [if_neg (by omega), if_neg (by simp [hts])]
  simp [hstr]

/-- A 13-byte event payload with a valid timestamp (1 Jan 2000) and the
unknown event code `0x1234 = 4660`, with trailing data `[9, 9]`. -/
def pEvUnknown : List Nat := [0, 208, 7, 1, 1, 0, 0, 0, 0, 52, 18, 9, 9]

theorem C10_event_witness :
    (11 ≤ pEvUnknown.length ∧ tsValid pEvUnknown = true
      ∧ le_value ((pEvUnknown.drop 9).take 2) ∉ event_map_keys)
    ∧ eventMessage_init pEvUnknown = .ok
        { event_code := le_value ((pEvUnknown.drop 9).take 2)
          event_string := "unknown:" ++ toString (le_value ((pEvUnknown.drop 9).take 2))
          event_data := pEvUnknown.drop 11 } :=
  ⟨⟨by decide, by decide, by decide⟩,
   C10_unknown_event pEvUnknown (by decide) (by decide) (by decide)⟩

end Zephyr
